import Mathlib

/-!
Formal model of `internal/glance/widget-bilibili-videos.go`: a feed
aggregator that fetches a list of RSSHub JSON feeds through a bounded
worker pool, extracts one normalized video entry per raw feed item,
merges the entries of all successfully fetched sources, sorts them by
publish time (newest first), classifies the pass as success /
partial-content / no-content, and stores a `Limit`-truncated list on the
widget.

Embedding conventions:
- Go strings are Lean `String`s; the regular-expression scan over
  `ContentHTML` operates on `String.data` (a `List Char`).
- `time.Time` values are modelled as `Nat` timestamps; `Time.After` is `<`
  on those numbers (strictly greater publish time sorts first).
- The bounded concurrent fetcher (`newJob`/`workerPoolDo`, an external
  collaborator of this file's code) is summarised by its outputs: the
  index-aligned per-source slots become `results : List (Option
  bilibiliFeedResponseJson)` (`none` at a slot whose error is set) and its
  pool-level error becomes a `poolErr : Bool` input.
- A Go runtime panic (the unconditional `imageURLs[0]` read, and a
  negative-bound slice) is modelled by the value `none` of an `Option`
  result.
- `sort.Slice` is an unstable comparison sort; it is modelled by insertion
  sort over the same comparator, which agrees with it up to the order of
  entries with equal timestamps (unspecified in Go as well).
-/

/-- One element of `bilibiliFeedResponseJson.Items`: identifier, canonical
URL, title, raw HTML body, publish timestamp, and the list of author names
(Go has a list of structs with a single `Name` field; only the names are
ever read, via `author.Name`). -/
structure feedItem where
  id : String := ""
  url : String := ""
  title : String := ""
  contentHTML : String := ""
  datePublished : Nat := 0
  authors : List String := []
deriving DecidableEq, Repr

/-- Decoded feed payload.  The Go struct also carries `Version`, `Title`,
`HomePageURL`, `Description` and `Language` metadata strings, but the
aggregation reads only `Items`; the metadata is omitted from the model. -/
structure bilibiliFeedResponseJson where
  items : List feedItem := []
deriving DecidableEq, Repr

/-- One normalized entry of the aggregation output (`bilibiliVideo`). -/
structure bilibiliVideo where
  ThumbnailUrl : String := ""
  Title : String := ""
  Url : String := ""
  Author : String := ""
  AuthorUrl : String := ""
  TimePosted : Nat := 0
deriving DecidableEq, Repr

/-- Model of matching the tail `src="([^"]+)"` of the pattern
`<img[^>]+src="([^"]+)"` at the head of `s`: the literal `src="`, then the
capture group `[^"]+` (greedy: the maximal nonempty run of characters other
than `"`), then the closing `"`.  Returns the captured characters together
with the remainder of the input after the closing quote. -/
def matchSrcAttr (s : List Char) : Option (List Char × List Char) :=
  match s with
  | 's' :: 'r' :: 'c' :: '=' :: '"' :: rest =>
    match rest.dropWhile (fun c => !(c = '"')) with
    | '"' :: rest2 =>
      let cap := rest.takeWhile (fun c => !(c = '"'))
      if cap = [] then none else some (cap, rest2)
    | _ => none
  | _ => none

/-- Model of matching `[^>]+src="([^"]+)"` at the head of `s` with Go's
leftmost-first (Perl-style) semantics: the greedy `[^>]+` consumes a
nonempty run of characters other than `>`, preferring the longest run for
which the rest of the pattern still matches immediately afterwards. -/
def findSrcGreedy : List Char → Option (List Char × List Char)
  | [] => none
  | c :: rest =>
    if c = '>' then none
    else
      match findSrcGreedy rest with
      | some r => some r
      | none => matchSrcAttr rest

/-- Model of matching the full pattern `<img[^>]+src="([^"]+)"` anchored at
the head of `s`: the literal `<img`, then `[^>]+src="([^"]+)"`. -/
def matchImgAt : List Char → Option (List Char × List Char)
  | '<' :: 'i' :: 'm' :: 'g' :: rest => findSrcGreedy rest
  | _ => none

/-- Scan step of `regexp.FindAllStringSubmatch`: walk the input left to
right; wherever the pattern matches, emit its capture group and resume after
the end of the match (successive matches are non-overlapping), otherwise
advance one character.  `fuel` bounds the number of scan steps; every step
consumes at least one character of the input, so starting the scan with
`s.length` fuel (as `imgSrcCaptures` does) never exhausts it. -/
def imgScanAux : Nat → List Char → List String
  | 0, _ => []
  | _ + 1, [] => []
  | fuel + 1, c :: rest =>
    match matchImgAt (c :: rest) with
    | some (cap, rem) => String.mk cap :: imgScanAux fuel rem
    | none => imgScanAux fuel rest

/-- Model of lines 151–160 of the Go source: compile
`<img[^>]+src="([^"]+)"`, run `FindAllStringSubmatch` on the item's HTML
body, and collect the capture group of every match.  (The Go guard
`len(match) > 1` always holds: the pattern has exactly one capture group and
it participates in every match.) -/
def imgSrcCaptures (s : String) : List String :=
  imgScanAux s.data.length s.data

/-- Model of Go `strings.Join`: the empty string for an empty list,
otherwise the first element followed by `sep ++ element` for each remaining
element. -/
def stringsJoin (elems : List String) (sep : String) : String :=
  match elems with
  | [] => ""
  | e :: rest => rest.foldl (fun acc x => acc ++ sep ++ x) e

/-- Comparator underlying `sortByNewest`.  Go sorts with
`less i j := v[i].TimePosted.After(v[j].TimePosted)`; a list that is
ascending for that strict comparator is exactly a list whose `TimePosted`
fields are non-increasing, i.e. sorted with respect to `newestFirst`. -/
def newestFirst (a b : bilibiliVideo) : Prop :=
  b.TimePosted ≤ a.TimePosted

instance : DecidableRel newestFirst := fun a b =>
  inferInstanceAs (Decidable (b.TimePosted ≤ a.TimePosted))

instance : IsTotal bilibiliVideo newestFirst :=
  ⟨fun a b => Nat.le_total b.TimePosted a.TimePosted⟩

instance : IsTrans bilibiliVideo newestFirst :=
  ⟨fun _ _ _ h1 h2 => Nat.le_trans h2 h1⟩

/-- Model of `bilibiliVideoList.sortByNewest` (lines 114–120): an in-place
unstable comparison sort by publish time, newest first, modelled by
insertion sort over `newestFirst`. -/
def sortByNewest (v : List bilibiliVideo) : List bilibiliVideo :=
  List.insertionSort newestFirst v

/-- Model of lines 148–173 for one raw item: collect the image-source
captures from the item's HTML body, then build the normalized entry.  Go
reads `imageURLs[0]` unconditionally; when the capture list is empty that
read is an index-out-of-range panic, modelled as `none`. -/
def extractVideo (imageProxy : String) (v : feedItem) : Option bilibiliVideo :=
  match imgSrcCaptures v.contentHTML with
  | [] => none
  | u :: _ =>
    some { ThumbnailUrl := imageProxy ++ u
           Title := v.title
           Url := v.url
           Author := stringsJoin v.authors ", "
           AuthorUrl := v.url
           TimePosted := v.datePublished }

/-- Extraction of every item of one successfully fetched payload, in item
order; a panic on any item aborts the whole pass (`none`). -/
def extractItems (imageProxy : String) : List feedItem → Option (List bilibiliVideo)
  | [] => some []
  | v :: rest =>
    match extractVideo imageProxy v, extractItems imageProxy rest with
    | some vid, some vids => some (vid :: vids)
    | _, _ => none

/-- The merge loop of lines 139–175, restricted to its append effect: each
source slot in original order either is errored (`none`, skipped here and
counted by `failedCount`) or contributes all of its extracted entries, which
are appended to the merged collection. -/
def extractAll (imageProxy : String) : List (Option bilibiliFeedResponseJson) → Option (List bilibiliVideo)
  | [] => some []
  | none :: rest => extractAll imageProxy rest
  | some response :: rest =>
    match extractItems imageProxy response.items, extractAll imageProxy rest with
    | some vids, some more => some (vids ++ more)
    | _, _ => none

/-- The `failed` counter of the merge loop: the number of source slots whose
error is set. -/
def failedCount : List (Option bilibiliFeedResponseJson) → Nat
  | [] => 0
  | none :: rest => failedCount rest + 1
  | some _ :: rest => failedCount rest

/-- Sum of the raw item counts over the sources that succeeded (the bound
the spec places on the size of the merged collection). -/
def sumItemCounts : List (Option bilibiliFeedResponseJson) → Nat
  | [] => 0
  | none :: rest => sumItemCounts rest
  | some response :: rest => response.items.length + sumItemCounts rest

/-- Result of one aggregation pass, mirroring the `(bilibiliVideoList,
error)` pair returned by `fetchBilibiliChannelUploads`: `noContent` is
`(nil, errNoContent)`, `someFailed videos k` is `(videos, errPartialContent
wrapped with "missing videos from k channels")`, and `ok videos` is
`(videos, nil)`. -/
inductive fetchOutcome where
  | noContent : fetchOutcome
  | someFailed (videos : List bilibiliVideo) (failed : Nat) : fetchOutcome
  | ok (videos : List bilibiliVideo) : fetchOutcome
deriving DecidableEq, Repr

/-- Model of `fetchBilibiliChannelUploads` (lines 122–188) from the point at
which the worker pool has returned.  The fetch stage itself is the external
worker-pool collaborator, summarised by its outputs: `results` is its
index-aligned per-source slots (`none` where the error slot is set) and
`poolErr` its pool-level error, on which Go returns the wrapped
`errNoContent` immediately.  `videoUrlTemplate` and `includeShorts` are
accepted, as in Go, and never read.  A `none` result is the
index-out-of-range panic of `extractVideo`. -/
def fetchBilibiliChannelUploads (poolErr : Bool)
    (results : List (Option bilibiliFeedResponseJson))
    (videoUrlTemplate : String) (includeShorts : Bool) (imageProxy : String) :
    Option fetchOutcome :=
  if poolErr then some .noContent
  else
    match extractAll imageProxy results with
    | none => none
    | some videos =>
      if videos.isEmpty then some .noContent
      else if failedCount results > 0 then
        some (.someFailed (sortByNewest videos) (failedCount results))
      else
        some (.ok (sortByNewest videos))

/-- The request descriptor built by `http.NewRequest("GET", feedUrl, nil)`.
Only its construction is repository code; the descriptor itself is opaque to
the aggregation. -/
structure httpRequest where
  method : String := "GET"
  url : String := ""
deriving DecidableEq, Repr

/-- Model of the request-builder loop (lines 123–128).  `http.NewRequest`
is standard-library code outside the repository; it is abstracted as an
arbitrary function `newRequest` that yields `none` (a nil request) exactly
when it reports an error, e.g. on a malformed URL.  Go discards that error
(`request, _ := ...`) and appends the possibly-nil request unconditionally,
so the slot is kept in every case. -/
def buildRequests (newRequest : String → Option httpRequest) :
    List String → List (Option httpRequest)
  | [] => []
  | feedUrl :: rest => newRequest feedUrl :: buildRequests newRequest rest

/-- Widget state (`bilibiliVideosWidget`).  The embedded `widgetBase` is
outside `src/`; only the fields this file's code reads or writes are kept. -/
structure bilibiliVideosWidget where
  Videos : List bilibiliVideo := []
  VideoUrlTemplate : String := ""
  Style : String := ""
  CollapseAfter : Int := 0
  CollapseAfterRows : Int := 0
  RSSHubUrls : List String := []
  Limit : Int := 0
  IncludeShorts : Bool := false
  ImageProxy : String := ""
deriving DecidableEq, Repr

/-- Model of `initialize` (lines 34–54; renamed here, as `initialize` is a
reserved word in Lean).  The `withTitle`/`withCacheDuration` calls touch only
`widgetBase` state, which is outside the model. -/
def initWidget (widget : bilibiliVideosWidget) : bilibiliVideosWidget :=
  let widget := if widget.Limit ≤ 0 then { widget with Limit := 25 } else widget
  let widget :=
    if widget.CollapseAfterRows = 0 ∨ widget.CollapseAfterRows < -1 then
      { widget with CollapseAfterRows := 4 }
    else widget
  let widget :=
    if widget.CollapseAfter = 0 ∨ widget.CollapseAfter < -1 then
      { widget with CollapseAfter := 7 }
    else widget
  if widget.ImageProxy = "" then { widget with ImageProxy := "//wsrv.nl/?url=" }
  else widget

/-- The video-list component of the Go `(videos, err)` return value. -/
def fetchedVideos : fetchOutcome → List bilibiliVideo
  | .noContent => []
  | .someFailed videos _ => videos
  | .ok videos => videos

/-- Modelled from the spec: `canContinueUpdateAfterHandlingErr` is defined on
`widgetBase`, which is not under `src/`.  Per the error-handling design, the
no-content error is "fatal to this aggregation pass" while the
partial-content error "accompanies a valid, usable result" that callers must
treat as usable, and a nil error continues normally. -/
def canContinueUpdateAfterHandlingErr : fetchOutcome → Bool
  | .noContent => false
  | .someFailed _ _ => true
  | .ok _ => true

/-- Model of `update` (lines 56–68): run the aggregation (with the fetch
stage summarised by `poolErr` and `results`, as in
`fetchBilibiliChannelUploads`), stop — keeping the previous `Videos` — when
the error is not survivable, and otherwise store the list, truncated to the
first `Limit` entries when it is longer than `Limit`.  A `none` result is a
panic: either the extraction panic propagating out of the fetch, or the Go
slice expression `videos[:widget.Limit]` with a negative `Limit`. -/
def update (widget : bilibiliVideosWidget) (poolErr : Bool)
    (results : List (Option bilibiliFeedResponseJson)) :
    Option bilibiliVideosWidget :=
  match fetchBilibiliChannelUploads poolErr results widget.VideoUrlTemplate
      widget.IncludeShorts widget.ImageProxy with
  | none => none
  | some outcome =>
    if canContinueUpdateAfterHandlingErr outcome = false then some widget
    else
      let videos := fetchedVideos outcome
      if (videos.length : Int) > widget.Limit then
        if widget.Limit < 0 then none
        else some { widget with Videos := videos.take widget.Limit.toNat }
      else some { widget with Videos := videos }

/-! Helper lemmas shared by the claim theorems. -/

lemma extractItems_length (imageProxy : String) :
    ∀ {items : List feedItem} {vids : List bilibiliVideo},
      extractItems imageProxy items = some vids → vids.length = items.length := by
  intro items
  induction items with
  | nil => intro vids h; simp [extractItems] at h; simp [h.symm]
  | cons v rest ih =>
    intro vids h
    unfold extractItems at h
    cases hv : extractVideo imageProxy v with
    | none => rw [hv] at h; exact absurd h (by simp)
    | some vid =>
      cases hr : extractItems imageProxy rest with
      | none => rw [hv, hr] at h; exact absurd h (by simp)
      | some vids2 =>
        rw [hv, hr] at h
        cases h
        simp [ih hr]

lemma extractAll_length (imageProxy : String) :
    ∀ {results : List (Option bilibiliFeedResponseJson)} {videos : List bilibiliVideo},
      extractAll imageProxy results = some videos →
      videos.length = sumItemCounts results := by
  intro results
  induction results with
  | nil => intro videos h; simp [extractAll] at h; simp [h.symm, sumItemCounts]
  | cons slot rest ih =>
    intro videos h
    cases slot with
    | none =>
      unfold extractAll at h
      simp [sumItemCounts, ih h]
    | some response =>
      unfold extractAll at h
      cases hi : extractItems imageProxy response.items with
      | none => rw [hi] at h; exact absurd h (by simp)
      | some vids =>
        cases hr : extractAll imageProxy rest with
        | none => rw [hi, hr] at h; exact absurd h (by simp)
        | some more =>
          rw [hi, hr] at h
          cases h
          simp [sumItemCounts, extractItems_length imageProxy hi, ih hr]

lemma sortByNewest_perm (v : List bilibiliVideo) : (sortByNewest v).Perm v :=
  List.perm_insertionSort newestFirst v

lemma sortByNewest_sorted (v : List bilibiliVideo) :
    List.Sorted newestFirst (sortByNewest v) :=
  List.sorted_insertionSort newestFirst v

lemma intercalate_go_foldl (sep : String) (l : List String) :
    ∀ acc, String.intercalate.go acc sep l = l.foldl (fun a x => a ++ sep ++ x) acc := by
  induction l with
  | nil => intro acc; rfl
  | cons a as ih => intro acc; simp [String.intercalate.go, List.foldl, ih]

lemma stringsJoin_eq_intercalate (sep : String) (l : List String) :
    stringsJoin l sep = String.intercalate sep l := by
  cases l with
  | nil => rfl
  | cons a as => simp [stringsJoin, String.intercalate, intercalate_go_foldl]

lemma initWidget_Limit (widget : bilibiliVideosWidget) :
    (initWidget widget).Limit = if widget.Limit ≤ 0 then 25 else widget.Limit := by
  simp only [initWidget]
  split_ifs <;> rfl

/-! Claim theorems. -/

/-- C1 (counterexample): the claim promises one of three outcomes for every
input, but an item whose HTML body has no image-source match makes the code
read `imageURLs[0]` out of bounds, so the aggregation panics and returns no
outcome at all. -/
theorem fetch_no_outcome_on_imageless_item :
    fetchBilibiliChannelUploads false
      [some { items := [{ contentHTML := "<p>plain text, no tags</p>" }] }]
      "" true "//wsrv.nl/?url=" = none := by decide

/-- C1 (amended): provided extraction does not panic (every item of every
successful source yields at least one image capture, witnessed by
`extractAll` returning `some`), the aggregation returns exactly one of three
outcomes: no-content whenever the merged collection is empty, regardless of
the failed-source count; partial-content with a failed count of exactly `k`
when the merged collection is non-empty and exactly `k ≥ 1` source slots
hold an error; and plain success when the merged collection is non-empty and
no source failed. -/
theorem fetch_outcome_classification
    (results : List (Option bilibiliFeedResponseJson))
    (videoUrlTemplate : String) (includeShorts : Bool) (imageProxy : String)
    (videos : List bilibiliVideo)
    (hx : extractAll imageProxy results = some videos) :
    (videos = [] →
      fetchBilibiliChannelUploads false results videoUrlTemplate includeShorts imageProxy
        = some .noContent) ∧
    (videos ≠ [] → 1 ≤ failedCount results →
      fetchBilibiliChannelUploads false results videoUrlTemplate includeShorts imageProxy
        = some (.someFailed (sortByNewest videos) (failedCount results))) ∧
    (videos ≠ [] → failedCount results = 0 →
      fetchBilibiliChannelUploads false results videoUrlTemplate includeShorts imageProxy
        = some (.ok (sortByNewest videos))) := by
  have hbase : fetchBilibiliChannelUploads false results videoUrlTemplate includeShorts imageProxy
      = (if videos.isEmpty then some .noContent
         else if failedCount results > 0 then
           some (.someFailed (sortByNewest videos) (failedCount results))
         else some (.ok (sortByNewest videos))) := by
    unfold fetchBilibiliChannelUploads
    rw [hx]
    rfl
  refine ⟨fun hv => ?_, fun hv hk => ?_, fun hv hk => ?_⟩
  · rw [hbase, if_pos (by simp [hv])]
  · rw [hbase, if_neg (by simp [hv]), if_pos (by omega)]
  · rw [hbase, if_neg (by simp [hv]), if_neg (by omega)]

/-- C1 (witness): a two-source input whose first source yields one entry and
whose second slot holds an error is classified as partial-content with
failed count 1. -/
theorem fetch_outcome_classification_witness :
    fetchBilibiliChannelUploads false
      [some { items := [{ contentHTML := "<img src=\"a.jpg\">", datePublished := 5 }] }, none]
      "" true "px"
      = some (.someFailed [{ ThumbnailUrl := "pxa.jpg", TimePosted := 5 }] 1) :=
  (fetch_outcome_classification
      [some { items := [{ contentHTML := "<img src=\"a.jpg\">", datePublished := 5 }] }, none]
      "" true "px" [{ ThumbnailUrl := "pxa.jpg", TimePosted := 5 }]
      (by decide)).2.1 (by decide) (by decide)

/-- C2: whatever outcome the aggregation returns, the video list it carries
is sorted by publish timestamp in non-increasing (newest-first) order; in
particular this holds for the non-empty partial-content and success
collections. -/
theorem fetch_result_sorted_newest_first (poolErr : Bool)
    (results : List (Option bilibiliFeedResponseJson))
    (videoUrlTemplate : String) (includeShorts : Bool) (imageProxy : String)
    (r : fetchOutcome)
    (h : fetchBilibiliChannelUploads poolErr results videoUrlTemplate includeShorts imageProxy
      = some r) :
    List.Sorted newestFirst (fetchedVideos r) := by
  unfold fetchBilibiliChannelUploads at h
  split at h
  · cases h; exact List.sorted_nil
  · split at h
    · simp at h
    · split at h
      · cases h; exact List.sorted_nil
      · split at h
        · cases h; exact sortByNewest_sorted _
        · cases h; exact sortByNewest_sorted _

/-- C2 (witness): a concrete pass over one source with publish times 5 and 9
returns the entries sorted newest first. -/
theorem fetch_result_sorted_newest_first_witness :
    List.Sorted newestFirst (fetchedVideos (.ok
      [{ ThumbnailUrl := "pxd.jpg", TimePosted := 9 },
       { ThumbnailUrl := "pxc.jpg", TimePosted := 5 }])) :=
  fetch_result_sorted_newest_first false
    [some { items := [{ contentHTML := "<img src=\"c.jpg\">", datePublished := 5 },
                      { contentHTML := "<img src=\"d.jpg\">", datePublished := 9 }] }]
    "" true "px" _ (by decide)

/-- C3 (code bug): the spec requires the extractor to handle an item without
any image reference explicitly and non-fatally, but the code reads
`imageURLs[0]` unconditionally; on a successfully fetched item whose HTML
body has zero image-source matches, extraction panics (no entry) and the
whole aggregation pass aborts instead of returning an outcome. -/
theorem extract_panics_without_image :
    extractVideo "//wsrv.nl/?url=" { contentHTML := "<p>hello</p>" } = none ∧
    fetchBilibiliChannelUploads false
      [some { items := [{ contentHTML := "<p>hello</p>" }] }]
      "" false "//wsrv.nl/?url=" = none :=
  ⟨by decide, by decide⟩

/-- C4: for every item whose HTML body yields at least one image-source
capture, the extracted entry exists and its thumbnail is the image-proxy
prefix concatenated verbatim (plain string append, no URL-encoding) with the
first capture in document order. -/
theorem thumbnail_uses_first_capture (imageProxy : String) (v : feedItem)
    (u : String) (rest : List String)
    (h : imgSrcCaptures v.contentHTML = u :: rest) :
    ∃ vid, extractVideo imageProxy v = some vid ∧
      vid.ThumbnailUrl = imageProxy ++ u := by
  unfold extractVideo
  rw [h]
  exact ⟨_, rfl, rfl⟩

/-- C4 (witness): a body with two image tags selects the URL of the first
tag in document order. -/
theorem thumbnail_uses_first_capture_witness :
    ∃ vid, extractVideo "//wsrv.nl/?url="
        { contentHTML := "<img src=\"first.jpg\"><img src=\"second.jpg\">" } = some vid ∧
      vid.ThumbnailUrl = "//wsrv.nl/?url=" ++ "first.jpg" :=
  thumbnail_uses_first_capture "//wsrv.nl/?url="
    { contentHTML := "<img src=\"first.jpg\"><img src=\"second.jpg\">" }
    "first.jpg" ["second.jpg"] (by decide)

/-- C5: the aggregation neither fabricates nor deduplicates entries: any
returned outcome carries a permutation of exactly the entries extracted from
the successful sources, and its length equals the sum of the raw item counts
over the sources whose error slot is not set (so an errored source
contributes zero entries and a successful one all of its items). -/
theorem fetch_entry_count_conservation
    (results : List (Option bilibiliFeedResponseJson))
    (videoUrlTemplate : String) (includeShorts : Bool) (imageProxy : String)
    (r : fetchOutcome)
    (h : fetchBilibiliChannelUploads false results videoUrlTemplate includeShorts imageProxy
      = some r) :
    ∃ videos, extractAll imageProxy results = some videos ∧
      (fetchedVideos r).Perm videos ∧
      (fetchedVideos r).length = sumItemCounts results := by
  cases hx : extractAll imageProxy results with
  | none =>
    unfold fetchBilibiliChannelUploads at h
    rw [if_neg (by simp), hx] at h
    simp at h
  | some videos =>
    have hbase : fetchBilibiliChannelUploads false results videoUrlTemplate includeShorts imageProxy
        = (if videos.isEmpty then some .noContent
           else if failedCount results > 0 then
             some (.someFailed (sortByNewest videos) (failedCount results))
           else some (.ok (sortByNewest videos))) := by
      unfold fetchBilibiliChannelUploads
      rw [hx]
      rfl
    rw [hbase] at h
    have hlen : videos.length = sumItemCounts results := extractAll_length imageProxy hx
    refine ⟨videos, rfl, ?_⟩
    by_cases he : videos.isEmpty
    · rw [if_pos he] at h
      cases h
      have hv : videos = [] := by simpa [List.isEmpty_iff] using he
      subst hv
      exact ⟨List.Perm.refl _, by simpa using hlen⟩
    · rw [if_neg he] at h
      by_cases hk : failedCount results > 0
      · rw [if_pos hk] at h
        cases h
        exact ⟨sortByNewest_perm videos,
          by rw [fetchedVideos, (sortByNewest_perm videos).length_eq, hlen]⟩
      · rw [if_neg hk] at h
        cases h
        exact ⟨sortByNewest_perm videos,
          by rw [fetchedVideos, (sortByNewest_perm videos).length_eq, hlen]⟩

/-- C5 (witness): one successful source with one item and one errored source
give an output of exactly one entry, the raw item count of the successful
source. -/
theorem fetch_entry_count_conservation_witness :
    ∃ videos,
      extractAll "q"
          [some { items := [{ contentHTML := "<img src=\"e.jpg\">", datePublished := 3 }] }, none]
        = some videos ∧
      (fetchedVideos (.someFailed [{ ThumbnailUrl := "qe.jpg", TimePosted := 3 }] 1)).Perm videos ∧
      (fetchedVideos (.someFailed [{ ThumbnailUrl := "qe.jpg", TimePosted := 3 }] 1)).length
        = sumItemCounts
            [some { items := [{ contentHTML := "<img src=\"e.jpg\">", datePublished := 3 }] }, none] :=
  fetch_entry_count_conservation
    [some { items := [{ contentHTML := "<img src=\"e.jpg\">", datePublished := 3 }] }, none]
    "" false "q" (.someFailed [{ ThumbnailUrl := "qe.jpg", TimePosted := 3 }] 1) (by decide)

/-- C6: the include-shorts flag is dead configuration: with every other
input held fixed, running the aggregation with the flag set and with it
cleared produces identical results (same entries, same outcome, same panic
behaviour); no item is ever filtered on it. -/
theorem includeShorts_flag_unused (poolErr : Bool)
    (results : List (Option bilibiliFeedResponseJson))
    (videoUrlTemplate : String) (imageProxy : String) :
    fetchBilibiliChannelUploads poolErr results videoUrlTemplate true imageProxy
      = fetchBilibiliChannelUploads poolErr results videoUrlTemplate false imageProxy := rfl

/-- C7: the entry's author display string is the item's author names joined
with ", " in item order (Go `strings.Join` agrees with
`String.intercalate`), and an item with zero authors still yields an entry,
whose author display string is empty. -/
theorem author_display_join (imageProxy : String) (v : feedItem)
    (vid : bilibiliVideo) (h : extractVideo imageProxy v = some vid) :
    vid.Author = String.intercalate ", " v.authors ∧
    (v.authors = [] → vid.Author = "") := by
  unfold extractVideo at h
  cases hc : imgSrcCaptures v.contentHTML with
  | nil => rw [hc] at h; simp at h
  | cons u us =>
    rw [hc] at h
    cases h
    refine ⟨stringsJoin_eq_intercalate ", " v.authors, fun ha => ?_⟩
    simp [ha, stringsJoin]

/-- C7 (witness): two authors are joined with ", ". -/
theorem author_display_join_witness :
    ({ ThumbnailUrl := "pxf.jpg", Author := "alice, bob" } : bilibiliVideo).Author
        = String.intercalate ", " ["alice", "bob"] ∧
    ((["alice", "bob"] : List String) = [] →
      ({ ThumbnailUrl := "pxf.jpg", Author := "alice, bob" } : bilibiliVideo).Author = "") :=
  author_display_join "px"
    { contentHTML := "<img src=\"f.jpg\">", authors := ["alice", "bob"] }
    { ThumbnailUrl := "pxf.jpg", Author := "alice, bob" } (by decide)

/-- C8: every produced entry carries the item's title and publish timestamp
through unchanged, and the item's canonical URL is used identically as both
the entry's primary link and its author link. -/
theorem entry_carries_title_url_time (imageProxy : String) (v : feedItem)
    (vid : bilibiliVideo) (h : extractVideo imageProxy v = some vid) :
    vid.Title = v.title ∧ vid.TimePosted = v.datePublished ∧
    vid.Url = v.url ∧ vid.AuthorUrl = v.url ∧ vid.AuthorUrl = vid.Url := by
  unfold extractVideo at h
  cases hc : imgSrcCaptures v.contentHTML with
  | nil => rw [hc] at h; simp at h
  | cons u us =>
    rw [hc] at h
    cases h
    exact ⟨rfl, rfl, rfl, rfl, rfl⟩

/-- C8 (witness): a concrete item's title, URL and timestamp are carried
through, with the URL doubling as the author link. -/
theorem entry_carries_title_url_time_witness :
    ({ ThumbnailUrl := "pxg.jpg", Title := "t1", Url := "u1", AuthorUrl := "u1",
        TimePosted := 11 } : bilibiliVideo).Title = "t1" ∧
    ({ ThumbnailUrl := "pxg.jpg", Title := "t1", Url := "u1", AuthorUrl := "u1",
        TimePosted := 11 } : bilibiliVideo).TimePosted = 11 ∧
    ({ ThumbnailUrl := "pxg.jpg", Title := "t1", Url := "u1", AuthorUrl := "u1",
        TimePosted := 11 } : bilibiliVideo).Url = "u1" ∧
    ({ ThumbnailUrl := "pxg.jpg", Title := "t1", Url := "u1", AuthorUrl := "u1",
        TimePosted := 11 } : bilibiliVideo).AuthorUrl = "u1" ∧
    ({ ThumbnailUrl := "pxg.jpg", Title := "t1", Url := "u1", AuthorUrl := "u1",
        TimePosted := 11 } : bilibiliVideo).AuthorUrl
      = ({ ThumbnailUrl := "pxg.jpg", Title := "t1", Url := "u1", AuthorUrl := "u1",
            TimePosted := 11 } : bilibiliVideo).Url :=
  entry_carries_title_url_time "px"
    { title := "t1", url := "u1", contentHTML := "<img src=\"g.jpg\">", datePublished := 11 }
    { ThumbnailUrl := "pxg.jpg", Title := "t1", Url := "u1", AuthorUrl := "u1", TimePosted := 11 }
    (by decide)

/-- C9: for every behaviour of the request constructor and every ordered
list of N source URLs, the request-builder loop produces exactly N slots,
with slot i holding the constructor's result for URL i; a URL on which the
constructor fails (a nil request) keeps its slot, so the list is never
shortened and no error is raised at this stage. -/
theorem buildRequests_length_and_slots (newRequest : String → Option httpRequest)
    (urls : List String) :
    (buildRequests newRequest urls).length = urls.length ∧
    ∀ i : Nat, (buildRequests newRequest urls)[i]? = (urls[i]?).map newRequest := by
  induction urls with
  | nil => exact ⟨rfl, fun i => by cases i <;> rfl⟩
  | cons u rest ih =>
    refine ⟨by simp [buildRequests, ih.1], fun i => ?_⟩
    cases i with
    | zero => simp [buildRequests]
    | succ n => simpa [buildRequests] using ih.2 n

/-- C10: after initialization the result-size cap is at least 1 (a
configured zero or negative limit is replaced by the default 25), and a
survivable update stores exactly the first `Limit` entries of the fetched
(sorted, newest-first) collection, hence at most `Limit` entries. -/
theorem limit_positive_and_truncation (widget : bilibiliVideosWidget)
    (results : List (Option bilibiliFeedResponseJson)) (r : fetchOutcome)
    (hf : fetchBilibiliChannelUploads false results (initWidget widget).VideoUrlTemplate
        (initWidget widget).IncludeShorts (initWidget widget).ImageProxy = some r)
    (hc : canContinueUpdateAfterHandlingErr r = true) :
    1 ≤ (initWidget widget).Limit ∧
    update (initWidget widget) false results
      = some { initWidget widget with
               Videos := (fetchedVideos r).take (initWidget widget).Limit.toNat } ∧
    ((fetchedVideos r).take (initWidget widget).Limit.toNat).length
      ≤ (initWidget widget).Limit.toNat := by
  have hlim : 1 ≤ (initWidget widget).Limit := by
    rw [initWidget_Limit]; split <;> omega
  refine ⟨hlim, ?_, ?_⟩
  · simp only [update, hf]
    rw [hc]
    simp only [Bool.true_eq_false, if_false]
    by_cases hl : ((fetchedVideos r).length : Int) > (initWidget widget).Limit
    · rw [if_pos hl, if_neg (by omega)]
    · rw [if_neg hl]
      have hle : (fetchedVideos r).length ≤ (initWidget widget).Limit.toNat := by omega
      rw [List.take_of_length_le hle]
  · calc ((fetchedVideos r).take (initWidget widget).Limit.toNat).length
        = min (initWidget widget).Limit.toNat (fetchedVideos r).length := List.length_take _ _
      _ ≤ (initWidget widget).Limit.toNat := Nat.min_le_left _ _

/-- C10 (witness): a default-configured widget gets limit 25 and stores the
single fetched entry, which is within the cap. -/
theorem limit_positive_and_truncation_witness :
    1 ≤ (initWidget {}).Limit ∧
    update (initWidget {}) false
        [some { items := [{ contentHTML := "<img src=\"w.jpg\">", datePublished := 7 }] }]
      = some { initWidget {} with
               Videos := (fetchedVideos
                   (.ok [{ ThumbnailUrl := "//wsrv.nl/?url=w.jpg", TimePosted := 7 }])).take
                 (initWidget {}).Limit.toNat } ∧
    ((fetchedVideos
        (.ok [{ ThumbnailUrl := "//wsrv.nl/?url=w.jpg", TimePosted := 7 }])).take
      (initWidget {}).Limit.toNat).length ≤ (initWidget {}).Limit.toNat :=
  limit_positive_and_truncation {}
    [some { items := [{ contentHTML := "<img src=\"w.jpg\">", datePublished := 7 }] }]
    (.ok [{ ThumbnailUrl := "//wsrv.nl/?url=w.jpg", TimePosted := 7 }])
    (by decide) (by decide)
